import Mathlib

/-!
Shallow embedding of the AeroTrack flight-tracking pipeline.

Server side (src/server/src/services/flightDataService.ts):
`processFlightData` / `getAircraftCategory` / `normalizeCallsign` (the
RecordNormalizer), `getOptimalBounds` (the BoundsAggregator), and the
subscriber/polling state machine (`handleClientConnection`,
`handleClientDisconnection`, `updateClientBounds`, `fetchAndBroadcastFlightData`).

Client side (the `useFlightData` hook): `updateFlights`, the ClientReconciler
that merges published batches into a per-viewer entity map under a 500 ms
throttle, movement thresholds and a periodic eviction sweep.

Numbers (coordinates, altitudes, millisecond timestamps) are modelled as `ℚ`.
JavaScript's `x || d` default idiom is modelled by explicit functions that
return the default on `null`/absent and on falsy values (`0`, `""`, `false`),
matching JS truthiness.
-/

namespace AeroTrack

/-- JS `x || d` for a nullable number: `null` and `0` are falsy. -/
def jsOrNum (x : Option ℚ) (d : ℚ) : ℚ :=
  match x with
  | none => d
  | some v => if v = 0 then d else v

/-- JS `x || d` for a nullable string: `null` and `""` are falsy. -/
def jsOrStr (x : Option String) (d : String) : String :=
  match x with
  | none => d
  | some s => if s = "" then d else s

/-- JS `x || d` for a nullable boolean: `null` and `false` are falsy. -/
def jsOrBool (x : Option Bool) (d : Bool) : Bool :=
  match x with
  | none => d
  | some b => if b then b else d

/-- JS `x || d` for a nullable integer: `null` and `0` are falsy. -/
def jsOrInt (x : Option Int) (d : Int) : Int :=
  match x with
  | none => d
  | some v => if v = 0 then d else v

/-- `{latitude, longitude, altitude}` of a ProcessedFlightData record. -/
structure Position where
  latitude : ℚ
  longitude : ℚ
  altitude : ℚ
deriving DecidableEq

/-- `{speed, heading, verticalRate}`; always constructed by the normalizer. -/
structure Velocity where
  speed : ℚ
  heading : ℚ
  verticalRate : ℚ
deriving DecidableEq

/-- `ProcessedFlightData` (server) = `FlightData` (client wire type). -/
structure ProcessedFlight where
  icao24 : String
  callsign : String
  originCountry : String
  position : Option Position
  velocity : Velocity
  onGround : Bool
  lastUpdate : ℚ
  category : String
deriving DecidableEq

/-- One raw OpenSky state vector; positional array indices become named
fields (`state[0]`=icao24, `state[1]`=callsign, `state[2]`=origin_country,
`state[3]`=time_position, `state[4]`=last_contact, `state[5]`=longitude,
`state[6]`=latitude, `state[7]`=baro_altitude, `state[8]`=on_ground,
`state[9]`=velocity, `state[10]`=true_track, `state[11]`=vertical_rate,
`state[17]`=category). `none` models a `null`/absent cell. -/
structure RawState where
  icao24 : Option String
  callsign : Option String
  originCountry : Option String
  timePosition : Option ℚ
  lastContact : Option ℚ
  longitude : Option ℚ
  latitude : Option ℚ
  baroAltitude : Option ℚ
  onGround : Option Bool
  velocity : Option ℚ
  trueTrack : Option ℚ
  verticalRate : Option ℚ
  category : Option Int
deriving DecidableEq

/-- The `rawData: any` argument of `processFlightData`: the guard
`!rawData || !rawData.states || !Array.isArray(rawData.states)` distinguishes
null input, an absent/falsy `states` field, a non-array `states`, and a
genuine array of state vectors. -/
inductive RawData where
  | nullIn
  | noStates
  | statesNonSeq
  | states (l : List RawState)

/-- JS `String.prototype.trim`: strip leading and trailing whitespace. -/
def jsTrim (s : String) : String :=
  ⟨((s.data.dropWhile (·.isWhitespace)).reverse.dropWhile
      (·.isWhitespace)).reverse⟩

/-- JS `String.prototype.toUpperCase` (over the ASCII data seen here). -/
def jsToUpper (s : String) : String :=
  ⟨s.data.map Char.toUpper⟩

/-- `normalizeCallsign(callsign) = (callsign || '').trim().toUpperCase()`;
on a (non-null) string argument `callsign || ''` is the identity. -/
def normalizeCallsign (callsign : String) : String :=
  jsToUpper (jsTrim callsign)

/-- The object literal `categories` in `getAircraftCategory`:
`categories[categoryCode]` is `undefined` off the 0–7 keys. -/
def categoriesLookup (c : Int) : Option String :=
  if c = 0 then some "Unknown"
  else if c = 1 then some "Light"
  else if c = 2 then some "Small"
  else if c = 3 then some "Large"
  else if c = 4 then some "High Vortex Large"
  else if c = 5 then some "Heavy"
  else if c = 6 then some "High Performance"
  else if c = 7 then some "Rotorcraft"
  else none

/-- `getAircraftCategory(categoryCode) = categories[categoryCode] || 'Unknown'`. -/
def getAircraftCategory (c : Int) : String :=
  jsOrStr (categoriesLookup c) "Unknown"

/-- The `.filter` predicate: `state[6] !== null && state[5] !== null`
(latitude and longitude both present). -/
def hasPosition (e : RawState) : Bool :=
  e.latitude.isSome && e.longitude.isSome

/-- The `.map` body of `processFlightData`, building one ProcessedFlightData.
`now` is `Date.now() / 1000`, the default for a missing `last_contact`. -/
def toProcessed (now : ℚ) (e : RawState) : ProcessedFlight :=
  { icao24 := jsOrStr e.icao24 ""
    callsign := normalizeCallsign (jsOrStr e.callsign "Unknown")
    originCountry := jsOrStr e.originCountry "Unknown"
    position :=
      match e.latitude, e.longitude with
      | some la, some lo =>
          some { latitude := la, longitude := lo, altitude := jsOrNum e.baroAltitude 0 }
      | _, _ => none
    velocity :=
      { speed := jsOrNum e.velocity 0
        heading := jsOrNum e.trueTrack 0
        verticalRate := jsOrNum e.verticalRate 0 }
    onGround := jsOrBool e.onGround false
    lastUpdate := jsOrNum e.lastContact now
    category := getAircraftCategory (jsOrInt e.category 0) }

/-- `FlightDataService.processFlightData`: empty output on null/absent/non-array
`states`, otherwise filter for position then map to records. -/
def processFlightData (now : ℚ) : RawData → List ProcessedFlight
  | .nullIn => []
  | .noStates => []
  | .statesNonSeq => []
  | .states l => (l.filter hasPosition).map (toProcessed now)

end AeroTrack

namespace AeroTrack

/-- A concrete raw state with every cell `null` except longitude/latitude
(the "should handle missing or null values gracefully" test input). -/
def rawAllNull : RawState :=
  { icao24 := none, callsign := none, originCountry := none,
    timePosition := none, lastContact := none,
    longitude := some (85456/10000), latitude := some (474502/10000),
    baroAltitude := none, onGround := none, velocity := none,
    trueTrack := none, verticalRate := none, category := none }

end AeroTrack

namespace AeroTrack

/-- **C1.** The normalizer returns `[]` for null input, a missing `states`
field, or a non-sequence `states`, and never fails; on sequence input it
drops exactly the entries missing latitude or longitude and produces one
record per remaining entry, with defaults: originCountry `"Unknown"`,
altitude `0`, velocity components `0`, onGround `false`, lastUpdate the
current time when `last_contact` is absent, and the category code mapped
through the fixed 8-entry table with any other or absent code giving
`"Unknown"`. -/
theorem claim_C1 :
    (∀ now : ℚ, processFlightData now RawData.nullIn = []
      ∧ processFlightData now RawData.noStates = []
      ∧ processFlightData now RawData.statesNonSeq = []) ∧
    (∀ (now : ℚ) (l : List RawState),
      processFlightData now (RawData.states l)
        = l.filterMap (fun e =>
            if hasPosition e then some (toProcessed now e) else none)) ∧
    (∀ (now : ℚ) (e : RawState) (la lo : ℚ),
      e.latitude = some la → e.longitude = some lo →
      (e.originCountry = none → (toProcessed now e).originCountry = "Unknown") ∧
      (e.baroAltitude = none →
        (toProcessed now e).position = some ⟨la, lo, 0⟩) ∧
      (e.velocity = none → (toProcessed now e).velocity.speed = 0) ∧
      (e.trueTrack = none → (toProcessed now e).velocity.heading = 0) ∧
      (e.verticalRate = none → (toProcessed now e).velocity.verticalRate = 0) ∧
      (e.onGround = none → (toProcessed now e).onGround = false) ∧
      (e.lastContact = none → (toProcessed now e).lastUpdate = now) ∧
      (toProcessed now e).category = getAircraftCategory (jsOrInt e.category 0)) ∧
    (getAircraftCategory 0 = "Unknown" ∧ getAircraftCategory 1 = "Light"
      ∧ getAircraftCategory 2 = "Small" ∧ getAircraftCategory 3 = "Large"
      ∧ getAircraftCategory 4 = "High Vortex Large"
      ∧ getAircraftCategory 5 = "Heavy"
      ∧ getAircraftCategory 6 = "High Performance"
      ∧ getAircraftCategory 7 = "Rotorcraft") ∧
    (∀ c : Int, c < 0 ∨ 7 < c → getAircraftCategory c = "Unknown") := by
  refine ⟨fun _ => ⟨rfl, rfl, rfl⟩, ?_, ?_, by decide, ?_⟩
  · intro now l
    show (l.filter hasPosition).map (toProcessed now) = _
    induction l with
    | nil => rfl
    | cons e t ih =>
        by_cases h : hasPosition e = true <;>
          simp [List.filter, List.filterMap, h, ih]
  · intro now e la lo hla hlo
    refine ⟨?_, ?_, ?_, ?_, ?_, ?_, ?_, rfl⟩ <;>
      intro h <;> simp [toProcessed, jsOrStr, jsOrNum, jsOrBool, hla, hlo, h]
  · intro c hc
    have h0 : ¬ (c = 0) := by omega
    have h1 : ¬ (c = 1) := by omega
    have h2 : ¬ (c = 2) := by omega
    have h3 : ¬ (c = 3) := by omega
    have h4 : ¬ (c = 4) := by omega
    have h5 : ¬ (c = 5) := by omega
    have h6 : ¬ (c = 6) := by omega
    have h7 : ¬ (c = 7) := by omega
    simp [getAircraftCategory, categoriesLookup, h0, h1, h2, h3, h4, h5, h6, h7,
      jsOrStr]

/-- Witness for C1 at concrete inputs: the all-null-but-position entry. -/
theorem claim_C1_witness :
    rawAllNull.latitude = some (474502/10000)
    ∧ rawAllNull.longitude = some (85456/10000)
    ∧ (toProcessed 5 rawAllNull).originCountry = "Unknown"
    ∧ (toProcessed 5 rawAllNull).lastUpdate = 5
    ∧ ((-1 : Int) < 0 ∨ (7 : Int) < -1)
    ∧ getAircraftCategory (-1) = "Unknown" := by
  have h := claim_C1
  have h3 := h.2.2.1 5 rawAllNull (474502/10000) (85456/10000) rfl rfl
  exact ⟨rfl, rfl, h3.1 rfl, h3.2.2.2.2.2.2.1 rfl,
    Or.inl (by norm_num), h.2.2.2.2 (-1) (Or.inl (by norm_num))⟩

end AeroTrack

namespace AeroTrack

/-! ## ClientReconciler (`useFlightData` / `updateFlights`) -/

/-- The per-viewer `Map<string, FlightData>`, as an association list in
insertion order. -/
abbrev ClientMap := List (String × ProcessedFlight)

/-- `Map.get` on a string-keyed JS `Map` modelled as an association list. -/
def lookupCM {α : Type} (m : List (String × α)) (k : String) : Option α :=
  (m.find? (fun p => p.1 == k)).map (·.2)

/-- `Map.set`: overwrite an existing binding in place, else append. -/
def setCM {α : Type} (m : List (String × α)) (k : String) (v : α) :
    List (String × α) :=
  match m with
  | [] => [(k, v)]
  | (k', v') :: t => if k' == k then (k, v) :: t else (k', v') :: setCM t k v

/-- The significant-movement test of `updateFlights`:
`|Δlat| > 0.0001 || |Δlon| > 0.0001 || |Δalt| > 100`. -/
def movedSignificantly (q p : Position) : Bool :=
  decide (|q.latitude - p.latitude| > 1/10000)
    || decide (|q.longitude - p.longitude| > 1/10000)
    || decide (|q.altitude - p.altitude| > 100)

/-- One iteration of the `newFlights.forEach` merge: records without a
position are skipped; an unknown key is inserted; a stored record is replaced
only on significant movement. The stored record's position is read through
the non-null assertion `existing.position!` in the source; the `none` branch
below mirrors that spot structurally and is unreachable, since only
positioned records are ever stored (`storedPositioned` below). -/
def applyRecord (m : ClientMap) (f : ProcessedFlight) : ClientMap :=
  match f.position with
  | none => m
  | some p =>
    match lookupCM m f.icao24 with
    | none => setCM m f.icao24 f
    | some g =>
      match g.position with
      | some q => if movedSignificantly q p then setCM m f.icao24 f else m
      | none => setCM m f.icao24 f

/-- `newFlightIds`: the keys of the batch records that carry a position. -/
def positionIds (l : List ProcessedFlight) : List String :=
  (l.filter (fun f => f.position.isSome)).map (·.icao24)

/-- The stale sweep: delete every entry whose key is not in `newFlightIds`
and whose `lastUpdate < (timestamp - 300000) / 1000`. -/
def evictStale (m : ClientMap) (ids : List String) (ts : ℚ) : ClientMap :=
  m.filter (fun p =>
    !(!(decide (p.1 ∈ ids)) && decide (p.2.lastUpdate < (ts - 300000) / 1000)))

/-- One `flightUpdate` message: full normalized sequence plus metadata. -/
structure BatchMsg where
  flights : List ProcessedFlight
  timestamp : ℚ
  totalFlights : Nat
deriving DecidableEq

/-- The `useFlightData` state touched by `updateFlights`: the entity map,
`updateCountRef`, `lastUpdateTimeRef`, the derived stats, and the
error/loading flags. -/
structure ReconState where
  flights : ClientMap
  updateCount : Nat
  lastUpdateTime : ℚ
  totalFlights : Nat
  statsLastUpdate : Option ℚ
  error : Option String
  isLoading : Bool
deriving DecidableEq

def initRecon : ReconState :=
  { flights := [], updateCount := 0, lastUpdateTime := 0,
    totalFlights := 0, statsLastUpdate := none, error := none, isLoading := true }

/-- `updateFlights(newFlightData)` called at wall-clock `now` (ms): throttle,
merge every positioned record, sweep on every `updateCount % 10 == 0` batch,
bump the counter, and take the stats from the batch metadata. -/
def updateFlights (s : ReconState) (now : ℚ) (b : BatchMsg) : ReconState :=
  if now - s.lastUpdateTime < 500 then s
  else
    let merged := b.flights.foldl applyRecord s.flights
    let cleaned :=
      if s.updateCount % 10 == 0 then
        evictStale merged (positionIds b.flights) b.timestamp
      else merged
    { flights := cleaned
      updateCount := s.updateCount + 1
      lastUpdateTime := now
      totalFlights := b.totalFlights
      statsLastUpdate := some b.timestamp
      error := none
      isLoading := false }

/-- A delivery sequence: `(now, batch)` pairs in arrival order. -/
def runBatches (s : ReconState) (evs : List (ℚ × BatchMsg)) : ReconState :=
  evs.foldl (fun st e => updateFlights st e.1 e.2) s

theorem lookupCM_cons {α : Type} (a : String) (b : α) (t : List (String × α))
    (k : String) :
    lookupCM ((a, b) :: t) k = if a == k then some b else lookupCM t k := by
  by_cases h : a == k <;> simp [lookupCM, List.find?_cons, h]

theorem lookupCM_setCM_self {α : Type} (m : List (String × α)) (k : String)
    (v : α) :
    lookupCM (setCM m k v) k = some v := by
  induction m with
  | nil => simp [lookupCM, setCM, List.find?_cons]
  | cons h t ih =>
      obtain ⟨a, b⟩ := h
      by_cases hk : a == k
      · have : a = k := by simpa using hk
        simp [setCM, hk, lookupCM_cons]
      · simp only [setCM, hk, if_false, Bool.false_eq_true]
        rw [lookupCM_cons, if_neg (by simpa using hk), ih]

end AeroTrack

namespace AeroTrack

/-- A concrete positioned record used in reconciler traces. -/
def flightX : ProcessedFlight :=
  { icao24 := "aaa", callsign := "XRAY", originCountry := "Q",
    position := some ⟨10, 20, 1000⟩, velocity := ⟨0, 0, 0⟩,
    onGround := false, lastUpdate := 0, category := "Unknown" }

/-- `flightX`'s key with no position: present in a batch yet never counted
among `newFlightIds`. -/
def ghostX : ProcessedFlight := { flightX with position := none }

def batchWith (ts : ℚ) (fs : List ProcessedFlight) : BatchMsg :=
  { flights := fs, timestamp := ts, totalFlights := fs.length }

/-- Ten applied batches, 600 ms apart: `flightX` arrives in the first and is
absent from the following nine; every timestamp is far beyond
`flightX.lastUpdate + 300 s`. -/
def traceA : List (ℚ × BatchMsg) :=
  [(1000600, batchWith 1000600 [flightX]),
   (1001200, batchWith 1001200 []),
   (1001800, batchWith 1001800 []),
   (1002400, batchWith 1002400 []),
   (1003000, batchWith 1003000 []),
   (1003600, batchWith 1003600 []),
   (1004200, batchWith 1004200 []),
   (1004800, batchWith 1004800 []),
   (1005400, batchWith 1005400 []),
   (1006000, batchWith 1006000 [])]

/-- `traceA` followed by an eleventh batch that carries `flightX`'s key only
as a positionless record. -/
def traceB : List (ℚ × BatchMsg) :=
  traceA ++ [(1006600, batchWith 1006600 [ghostX])]

/-- `traceA` followed by an eleventh batch from which the key is absent. -/
def traceC : List (ℚ × BatchMsg) :=
  traceA ++ [(1006600, batchWith 1006600 [])]

end AeroTrack

namespace AeroTrack

/-- **C2.** Merging one positioned batch record into the entity map: an
unknown key is inserted; a known key is replaced exactly when the latitude
delta exceeds 1e-4, or the longitude delta exceeds 1e-4, or the altitude
delta exceeds 100; otherwise the map is left entirely unchanged (same entry,
same fields). Batch application folds `applyRecord` over the records
(`updateFlights`). -/
theorem claim_C2 :
    ∀ (m : ClientMap) (f : ProcessedFlight) (p : Position),
      f.position = some p →
      (lookupCM m f.icao24 = none →
        applyRecord m f = setCM m f.icao24 f
        ∧ lookupCM (applyRecord m f) f.icao24 = some f) ∧
      (∀ (g : ProcessedFlight) (q : Position),
        lookupCM m f.icao24 = some g → g.position = some q →
        ((|q.latitude - p.latitude| > 1/10000 ∨ |q.longitude - p.longitude| > 1/10000
            ∨ |q.altitude - p.altitude| > 100) →
          lookupCM (applyRecord m f) f.icao24 = some f) ∧
        (|q.latitude - p.latitude| ≤ 1/10000 ∧ |q.longitude - p.longitude| ≤ 1/10000
            ∧ |q.altitude - p.altitude| ≤ 100 →
          applyRecord m f = m)) := by
  intro m f p hp
  constructor
  · intro hnone
    have happ : applyRecord m f = setCM m f.icao24 f := by
      simp [applyRecord, hp, hnone]
    exact ⟨happ, by rw [happ]; exact lookupCM_setCM_self m f.icao24 f⟩
  · intro g q hg hq
    constructor
    · intro hmov
      have hms : movedSignificantly q p = true := by
        simp only [movedSignificantly, Bool.or_eq_true, decide_eq_true_eq]
        tauto
      simp [applyRecord, hp, hg, hq, hms, lookupCM_setCM_self]
    · rintro ⟨h1, h2, h3⟩
      have hms : movedSignificantly q p = false := by
        simp only [movedSignificantly, Bool.or_eq_false_iff,
          decide_eq_false_iff_not, not_lt]
        exact ⟨⟨h1, h2⟩, h3⟩
      simp [applyRecord, hp, hg, hq, hms]

/-- Witness for C2: inserting `flightX` into the empty map. -/
theorem claim_C2_witness :
    lookupCM (applyRecord [] flightX) flightX.icao24 = some flightX :=
  ((claim_C2 [] flightX ⟨10, 20, 1000⟩ rfl).1 rfl).2

end AeroTrack

namespace AeroTrack

theorem mem_setCM {α : Type} (m : List (String × α)) (k : String) (v : α)
    (x : String × α) (hx : x ∈ setCM m k v) :
    x = (k, v) ∨ x ∈ m := by
  induction m with
  | nil => simpa [setCM] using hx
  | cons h t ih =>
      obtain ⟨a, b⟩ := h
      by_cases hk : a == k
      · simp only [setCM, hk, if_pos, List.mem_cons] at hx
        rcases hx with hx | hx
        · exact Or.inl hx
        · exact Or.inr (List.mem_cons_of_mem _ hx)
      · simp only [setCM, hk, Bool.false_eq_true, if_false, List.mem_cons] at hx
        rcases hx with hx | hx
        · exact Or.inr (by simp [hx])
        · rcases ih hx with h' | h'
          · exact Or.inl h'
          · exact Or.inr (List.mem_cons_of_mem _ h')

theorem applyRecord_positioned (m : ClientMap) (f : ProcessedFlight)
    (hm : ∀ e ∈ m, e.2.position.isSome) :
    ∀ e ∈ applyRecord m f, e.2.position.isSome := by
  intro e he
  cases hp : f.position with
  | none => exact hm e (by simpa [applyRecord, hp] using he)
  | some p =>
      have hins : e ∈ setCM m f.icao24 f → e.2.position.isSome := by
        intro h
        rcases mem_setCM m f.icao24 f e h with h' | h'
        · simp [h', hp]
        · exact hm e h'
      cases hl : lookupCM m f.icao24 with
      | none => exact hins (by simpa [applyRecord, hp, hl] using he)
      | some g =>
          cases hq : g.position with
          | none => exact hins (by simpa [applyRecord, hp, hl, hq] using he)
          | some q =>
              by_cases hms : movedSignificantly q p = true
              · exact hins (by simpa [applyRecord, hp, hl, hq, hms] using he)
              · exact hm e (by simpa [applyRecord, hp, hl, hq, hms] using he)

theorem foldl_applyRecord_positioned (l : List ProcessedFlight) (m : ClientMap)
    (hm : ∀ e ∈ m, e.2.position.isSome) :
    ∀ e ∈ l.foldl applyRecord m, e.2.position.isSome := by
  induction l generalizing m with
  | nil => exact hm
  | cons f t ih => exact ih (applyRecord m f) (applyRecord_positioned m f hm)

/-- §3 invariant: the entity map never stores a positionless record, so the
`existing.position!` read in the merge loop never fails. -/
theorem storedPositioned (evs : List (ℚ × BatchMsg)) :
    ∀ e ∈ (runBatches initRecon evs).flights, e.2.position.isSome := by
  suffices h : ∀ (evs : List (ℚ × BatchMsg)) (s : ReconState),
      (∀ e ∈ s.flights, e.2.position.isSome) →
      ∀ e ∈ (runBatches s evs).flights, e.2.position.isSome by
    exact h evs initRecon (by simp [initRecon])
  intro evs
  induction evs with
  | nil => intro s hs; exact hs
  | cons ev t ih =>
      intro s hs
      refine ih (updateFlights s ev.1 ev.2) ?_
      by_cases hth : ev.1 - s.lastUpdateTime < 500
      · simpa [updateFlights, hth] using hs
      · have hfold := foldl_applyRecord_positioned ev.2.flights s.flights hs
        intro e he
        simp only [updateFlights, if_neg hth] at he
        by_cases hsw : (s.updateCount % 10 == 0) = true
        · simp only [hsw, if_true] at he
          exact hfold e (List.mem_of_mem_filter he)
        · simp only [hsw, if_false, Bool.false_eq_true] at he
          exact hfold e he

end AeroTrack

namespace AeroTrack

/-- Reconciler state after the first batch of `traceA`. -/
def stA : ReconState :=
  { flights := [("aaa", flightX)], updateCount := 1, lastUpdateTime := 1000600,
    totalFlights := 1, statsLastUpdate := some 1000600,
    error := none, isLoading := false }

/-- Reconciler state after the k-th batch of `traceA` (2 ≤ k ≤ 10). -/
def stMid (k : Nat) : ReconState :=
  { flights := [("aaa", flightX)], updateCount := k,
    lastUpdateTime := 1000000 + 600 * (k : ℚ), totalFlights := 0,
    statsLastUpdate := some (1000000 + 600 * (k : ℚ)),
    error := none, isLoading := false }

/-- An applied batch with an empty flight list and no sweep leaves the map
as it was and just advances the counter, clock and stats. -/
theorem stepEmpty (s : ReconState) (now : ℚ)
    (hth : ¬ now - s.lastUpdateTime < 500) (hsw : s.updateCount % 10 ≠ 0) :
    updateFlights s now (batchWith now []) =
      { flights := s.flights, updateCount := s.updateCount + 1,
        lastUpdateTime := now, totalFlights := 0,
        statsLastUpdate := some now, error := none, isLoading := false } := by
  have hb : (s.updateCount % 10 == 0) = false := by
    simpa [beq_eq_false_iff_ne] using hsw
  simp [updateFlights, if_neg hth, hb, batchWith]

theorem stepFirst :
    updateFlights initRecon 1000600 (batchWith 1000600 [flightX]) = stA := by
  have hth : ¬ (1000600 : ℚ) - initRecon.lastUpdateTime < 500 := by
    norm_num [initRecon]
  have hmem : decide ("aaa" ∈ (["aaa"] : List String)) = true := by decide
  simp only [updateFlights, if_neg hth]
  norm_num [initRecon, batchWith, applyRecord, flightX, lookupCM,
    List.find?, setCM, positionIds, List.filter, evictStale, hmem, stA]

theorem runTraceA : runBatches initRecon traceA = stMid 10 := by
  have h2 : updateFlights stA 1001200 (batchWith 1001200 []) = stMid 2 := by
    rw [stepEmpty stA 1001200 (by norm_num [stA]) (by norm_num [stA])]
    norm_num [stA, stMid]
  have step : ∀ k : Nat, 2 ≤ k → k ≤ 9 →
      updateFlights (stMid k) (1000000 + 600 * ((k : ℚ) + 1))
          (batchWith (1000000 + 600 * ((k : ℚ) + 1)) []) = stMid (k + 1) := by
    intro k hk2 hk9
    have hth : ¬ (1000000 + 600 * ((k : ℚ) + 1)) - (stMid k).lastUpdateTime < 500 := by
      simp only [stMid]
      ring_nf
      norm_num
    have hsw : (stMid k).updateCount % 10 ≠ 0 := by
      simp only [stMid]
      omega
    rw [stepEmpty (stMid k) _ hth hsw]
    simp only [stMid]
    push_cast
    norm_num
  have h3 := step 2 (by norm_num) (by norm_num)
  have h4 := step 3 (by norm_num) (by norm_num)
  have h5 := step 4 (by norm_num) (by norm_num)
  have h6 := step 5 (by norm_num) (by norm_num)
  have h7 := step 6 (by norm_num) (by norm_num)
  have h8 := step 7 (by norm_num) (by norm_num)
  have h9 := step 8 (by norm_num) (by norm_num)
  have h10 := step 9 (by norm_num) (by norm_num)
  norm_num at h3 h4 h5 h6 h7 h8 h9 h10
  simp only [runBatches, traceA, List.foldl]
  rw [stepFirst, h2, h3, h4, h5, h6, h7, h8, h9, h10]

end AeroTrack

namespace AeroTrack

theorem stepGhost :
    updateFlights (stMid 10) 1006600 (batchWith 1006600 [ghostX]) =
      { flights := [], updateCount := 11, lastUpdateTime := 1006600,
        totalFlights := 1, statsLastUpdate := some 1006600,
        error := none, isLoading := false } := by
  have hth : ¬ (1006600 : ℚ) - (stMid 10).lastUpdateTime < 500 := by
    norm_num [stMid]
  have hstale : decide (flightX.lastUpdate < ((1006600 : ℚ) - 300000) / 1000) = true := by
    rw [decide_eq_true_eq]
    norm_num [flightX]
  simp only [updateFlights, if_neg hth]
  norm_num [stMid, batchWith, applyRecord, ghostX, flightX, positionIds,
    List.filter, evictStale, hstale, lookupCM, List.find?]

theorem stepLastEmpty :
    updateFlights (stMid 10) 1006600 (batchWith 1006600 []) =
      { flights := [], updateCount := 11, lastUpdateTime := 1006600,
        totalFlights := 0, statsLastUpdate := some 1006600,
        error := none, isLoading := false } := by
  have hth : ¬ (1006600 : ℚ) - (stMid 10).lastUpdateTime < 500 := by
    norm_num [stMid]
  have hstale : decide (flightX.lastUpdate < ((1006600 : ℚ) - 300000) / 1000) = true := by
    rw [decide_eq_true_eq]
    norm_num [flightX]
  simp only [updateFlights, if_neg hth]
  norm_num [stMid, batchWith, positionIds, List.filter, evictStale, hstale,
    lookupCM, List.find?]
  have h2 : flightX.lastUpdate < (3533 : ℚ) / 5 := by norm_num [flightX]
  simp [decide_eq_true h2]

/-- **C3 counterexample.** The claim puts the eviction sweep on every 10th
applied batch (counted from service start) and keys it on absence from the
current batch. On `traceA`, `flightX` ("aaa") arrives in the 1st applied
batch and is absent, stale (`lastUpdate = 0`, cutoff ≈ 700 s), from the 2nd
through the 10th — so the claim predicts eviction at the 10th applied batch;
the code sweeps only when the pre-increment counter is divisible by 10
(batches 1, 11, 21, …) and keeps it. On `traceB`, the key is present in the
11th batch but only on a positionless record; by the claim ("key absent from
the current batch" — it is not absent) the entry would be retained through
every batch, yet the code's sweep at batch 11 evicts it, because
`newFlightIds` collects only position-carrying records. -/
theorem claim_C3_counterexample :
    lookupCM (runBatches initRecon traceA).flights "aaa" = some flightX
    ∧ lookupCM (runBatches initRecon traceB).flights "aaa" = none := by
  constructor
  · rw [runTraceA]
    decide
  · have hsplit : runBatches initRecon traceB
        = updateFlights (runBatches initRecon traceA) 1006600
            (batchWith 1006600 [ghostX]) := by
      simp [runBatches, traceB, List.foldl_append]
    rw [hsplit, runTraceA, stepGhost]
    decide

/-- **C3 (amended).** For an applied batch the eviction sweep runs exactly
when the zero-based applied-batch counter is divisible by 10 — the 1st,
11th, 21st, … applied batch, not the 10th — and it removes exactly the
entries whose key is not among the batch's position-carrying records and
whose `lastUpdate` is older than (batch timestamp − 300 000 ms)/1000 s;
consequently an entity absent from the nine batches following its insertion
is still retained after the 10th applied batch (`traceA`), and is evicted at
the 11th if still absent and stale (`traceC`). -/
theorem claim_C3_amended :
    (∀ (s : ReconState) (now : ℚ) (b : BatchMsg), ¬ now - s.lastUpdateTime < 500 →
      (updateFlights s now b).flights =
        if s.updateCount % 10 = 0 then
          evictStale (b.flights.foldl applyRecord s.flights) (positionIds b.flights)
            b.timestamp
        else b.flights.foldl applyRecord s.flights) ∧
    (∀ (m : ClientMap) (ids : List String) (ts : ℚ) (e : String × ProcessedFlight),
      e ∈ evictStale m ids ts ↔
        e ∈ m ∧ ¬(e.1 ∉ ids ∧ e.2.lastUpdate < (ts - 300000) / 1000)) ∧
    lookupCM (runBatches initRecon traceA).flights "aaa" = some flightX
    ∧ lookupCM (runBatches initRecon traceC).flights "aaa" = none := by
  refine ⟨?_, ?_, ?_, ?_⟩
  · intro s now b h
    simp only [updateFlights, if_neg h]
    by_cases hsw : s.updateCount % 10 = 0
    · simp [hsw]
    · have hb : (s.updateCount % 10 == 0) = false := by
        simpa [beq_eq_false_iff_ne] using hsw
      simp [hb, hsw]
  · intro m ids ts e
    simp only [evictStale, List.mem_filter, Bool.not_eq_true', Bool.and_eq_false_iff,
      Bool.not_eq_false', decide_eq_true_eq, decide_eq_false_iff_not]
    tauto
  · rw [runTraceA]
    decide
  · have hsplit : runBatches initRecon traceC
        = updateFlights (runBatches initRecon traceA) 1006600
            (batchWith 1006600 []) := by
      simp [runBatches, traceC, List.foldl_append]
    rw [hsplit, runTraceA, stepLastEmpty]
    decide

/-- Witness for the amended C3 at a concrete applied batch. -/
theorem claim_C3_witness :
    (updateFlights initRecon 1000600 (batchWith 1000600 [flightX])).flights =
      if initRecon.updateCount % 10 = 0 then
        evictStale ((batchWith 1000600 [flightX]).flights.foldl applyRecord
            initRecon.flights)
          (positionIds (batchWith 1000600 [flightX]).flights)
          (batchWith 1000600 [flightX]).timestamp
      else (batchWith 1000600 [flightX]).flights.foldl applyRecord initRecon.flights :=
  claim_C3_amended.1 initRecon 1000600 (batchWith 1000600 [flightX])
    (by norm_num [initRecon])

/-- **C4.** A batch arriving less than 500 ms after the last applied batch is
discarded wholesale: the returned state is the previous state, so the entity
map, the applied-batch counter, the throttle clock and the derived stats are
all unchanged — no partial application. An applied batch stamps
`lastUpdateTime := now`, and application requires `now ≥ lastUpdateTime + 500`
with `lastUpdateTime` the previous applied batch's arrival time, so
consecutive applied batches are at least 500 ms apart: at most 2 batches per
second are ever processed, whatever the source cadence. -/
theorem claim_C4 :
    (∀ (s : ReconState) (now : ℚ) (b : BatchMsg),
      now - s.lastUpdateTime < 500 → updateFlights s now b = s) ∧
    (∀ (s : ReconState) (now : ℚ) (b : BatchMsg),
      ¬ now - s.lastUpdateTime < 500 →
        (updateFlights s now b).lastUpdateTime = now
        ∧ s.lastUpdateTime + 500 ≤ now) := by
  constructor
  · intro s now b h
    simp [updateFlights, h]
  · intro s now b h
    refine ⟨?_, by linarith [not_lt.mp h]⟩
    simp [updateFlights, if_neg h]

/-- Witness for C4: a batch 100 ms after start is discarded. -/
theorem claim_C4_witness :
    updateFlights initRecon 100 (batchWith 100 [flightX]) = initRecon :=
  claim_C4.1 initRecon 100 (batchWith 100 [flightX]) (by norm_num [initRecon])

end AeroTrack

namespace AeroTrack

/-! ## BroadcastService (`FlightDataService`) -/

/-- `GeographicBounds` `{lamin, lomin, lamax, lomax}` (south, west, north,
east). -/
structure GeographicBounds where
  lamin : ℚ
  lomin : ℚ
  lamax : ℚ
  lomax : ℚ
deriving DecidableEq

/-- `getOptimalBounds` over the values of `clientBounds`: `null` when there
are none, the single entry unchanged, otherwise the `Math.min`/`Math.max`
envelope across all entries. -/
def getOptimalBounds (l : List GeographicBounds) : Option GeographicBounds :=
  match l with
  | [] => none
  | [b] => some b
  | b :: rest =>
      some { lamin := rest.foldl (fun a x => min a x.lamin) b.lamin
             lomin := rest.foldl (fun a x => min a x.lomin) b.lomin
             lamax := rest.foldl (fun a x => max a x.lamax) b.lamax
             lomax := rest.foldl (fun a x => max a x.lomax) b.lomax }

/-- `Set.add`: insert when absent (JS `Set` keeps insertion order). -/
def insertSet (l : List String) (id : String) : List String :=
  if id ∈ l then l else l ++ [id]

/-- `Set.delete` / removing every binding of a key. -/
def removeSet (l : List String) (id : String) : List String :=
  l.filter (fun x => x ≠ id)

/-- `Map.delete` on the bounds map. -/
def removeBoundsMap (m : List (String × GeographicBounds)) (id : String) :
    List (String × GeographicBounds) :=
  m.filter (fun p => p.1 ≠ id)

/-- The `FlightDataService` instance state: the subscriber set, the
per-subscriber bounds map, whether `pollingInterval` is armed, the
`lastFlightData` cache, and a count of `fetchAndBroadcastFlightData`
invocations (instrumenting where the code fires a fetch cycle). -/
structure ServerState where
  connectedClients : List String
  clientBounds : List (String × GeographicBounds)
  pollingOn : Bool
  lastFlightData : List ProcessedFlight
  fetchCalls : Nat
deriving DecidableEq

def initServer : ServerState :=
  { connectedClients := [], clientBounds := [], pollingOn := false,
    lastFlightData := [], fetchCalls := 0 }

/-- `startPolling`: returns at once when the timer is already armed;
otherwise fires one immediate `fetchAndBroadcastFlightData` and arms the
recurring timer. -/
def startPolling (s : ServerState) : ServerState :=
  if s.pollingOn then s
  else { s with pollingOn := true, fetchCalls := s.fetchCalls + 1 }

/-- `stopPolling`: disarm the timer when armed. -/
def stopPolling (s : ServerState) : ServerState :=
  if s.pollingOn then { s with pollingOn := false } else s

/-- `handleClientConnection`: add the socket id to the set (the new socket is
also sent the cached data directly — an emission, not a state change), and
start polling when this made the set size 1. -/
def handleClientConnection (s : ServerState) (id : String) : ServerState :=
  if (insertSet s.connectedClients id).length = 1 then
    startPolling { s with connectedClients := insertSet s.connectedClients id }
  else
    { s with connectedClients := insertSet s.connectedClients id }

/-- `handleClientDisconnection`: delete the id from the set and from the
bounds map; stop polling when no client remains. -/
def handleClientDisconnection (s : ServerState) (id : String) : ServerState :=
  if (removeSet s.connectedClients id).length = 0 then
    stopPolling { s with
      connectedClients := removeSet s.connectedClients id
      clientBounds := removeBoundsMap s.clientBounds id }
  else
    { s with
      connectedClients := removeSet s.connectedClients id
      clientBounds := removeBoundsMap s.clientBounds id }

/-- `updateClientBounds`: store the bounds for the id — there is no registry
membership check — then immediately fire one fetch cycle. -/
def updateClientBounds (s : ServerState) (id : String) (b : GeographicBounds) :
    ServerState :=
  { s with clientBounds := setCM s.clientBounds id b,
           fetchCalls := s.fetchCalls + 1 }

/-- Transport-level subscriber join/leave signals. -/
inductive JLEvent where
  | join (id : String)
  | leave (id : String)

def stepJL (s : ServerState) : JLEvent → ServerState
  | .join id => handleClientConnection s id
  | .leave id => handleClientDisconnection s id

def runJL (evs : List JLEvent) : ServerState :=
  evs.foldl stepJL initServer

end AeroTrack

namespace AeroTrack

theorem startPolling_pollingOn (s : ServerState) :
    (startPolling s).pollingOn = true := by
  by_cases h : s.pollingOn <;> simp [startPolling, h]

theorem startPolling_of_true (s : ServerState) (h : s.pollingOn = true) :
    startPolling s = s := by
  simp [startPolling, h]

theorem stopPolling_pollingOn (s : ServerState) :
    (stopPolling s).pollingOn = false := by
  by_cases h : s.pollingOn <;> simp [stopPolling, h]

theorem insertSet_ne_nil (l : List String) (id : String) :
    insertSet l id ≠ [] := by
  by_cases h : id ∈ l
  · simpa [insertSet, h] using List.ne_nil_of_mem h
  · simp [insertSet, h]

theorem startPolling_connectedClients (s : ServerState) :
    (startPolling s).connectedClients = s.connectedClients := by
  by_cases h : s.pollingOn <;> simp [startPolling, h]

theorem stopPolling_connectedClients (s : ServerState) :
    (stopPolling s).connectedClients = s.connectedClients := by
  by_cases h : s.pollingOn <;> simp [stopPolling, h]

theorem pollingInv_step (s : ServerState)
    (h : s.pollingOn = true ↔ s.connectedClients ≠ []) (e : JLEvent) :
    (stepJL s e).pollingOn = true ↔ (stepJL s e).connectedClients ≠ [] := by
  cases e with
  | join id =>
      have hne := insertSet_ne_nil s.connectedClients id
      by_cases hlen : (insertSet s.connectedClients id).length = 1
      · simp only [stepJL, handleClientConnection]
        rw [if_pos hlen, startPolling_pollingOn, startPolling_connectedClients]
        simpa using hne
      · have hsne : s.connectedClients ≠ [] := by
          intro hnil
          exact hlen (by simp [insertSet, hnil])
        simp only [stepJL, handleClientConnection]
        rw [if_neg hlen]
        simpa [hne] using h.mpr hsne
  | leave id =>
      by_cases hlen : (removeSet s.connectedClients id).length = 0
      · simp only [stepJL, handleClientDisconnection]
        rw [if_pos hlen, stopPolling_pollingOn, stopPolling_connectedClients]
        simp [List.length_eq_zero.mp hlen]
      · have hrne : removeSet s.connectedClients id ≠ [] := by
          intro hnil
          exact hlen (by simp [hnil])
        have hsne : s.connectedClients ≠ [] := by
          intro hnil
          exact hrne (by simp [removeSet, hnil])
        simp only [stepJL, handleClientDisconnection]
        rw [if_neg hlen]
        simpa [hrne] using h.mpr hsne

theorem pollingInv_run (evs : List JLEvent) :
    (runJL evs).pollingOn = true ↔ (runJL evs).connectedClients ≠ [] := by
  suffices h : ∀ (evs : List JLEvent) (s : ServerState),
      (s.pollingOn = true ↔ s.connectedClients ≠ []) →
      ((evs.foldl stepJL s).pollingOn = true
        ↔ (evs.foldl stepJL s).connectedClients ≠ []) by
    exact h evs initServer (by simp [initServer])
  intro evs
  induction evs with
  | nil => exact fun s hs => hs
  | cons e t ih => exact fun s hs => ih (stepJL s e) (pollingInv_step s hs e)

end AeroTrack

namespace AeroTrack

/-- **C5.** After any sequence of join/leave events from the initial state,
the recurring timer is armed iff at least one subscriber is connected; a join
into an empty registry arms the timer and fires exactly one immediate fetch
cycle; a join while subscribers exist changes neither the polling state nor
the fetch count (the newcomer is served from the cache instead); the leave
that empties the registry disarms the timer. -/
theorem claim_C5 (evs : List JLEvent) :
    ((runJL evs).pollingOn = true ↔ (runJL evs).connectedClients ≠ []) ∧
    (∀ id, (runJL evs).connectedClients = [] →
      (handleClientConnection (runJL evs) id).pollingOn = true
      ∧ (handleClientConnection (runJL evs) id).fetchCalls
          = (runJL evs).fetchCalls + 1) ∧
    (∀ id, (runJL evs).connectedClients ≠ [] →
      (handleClientConnection (runJL evs) id).pollingOn = (runJL evs).pollingOn
      ∧ (handleClientConnection (runJL evs) id).fetchCalls
          = (runJL evs).fetchCalls) ∧
    (∀ id, removeSet (runJL evs).connectedClients id = [] →
      (handleClientDisconnection (runJL evs) id).pollingOn = false) := by
  have hinv := pollingInv_run evs
  set s := runJL evs with hs
  refine ⟨hinv, ?_, ?_, ?_⟩
  · intro id hnil
    have hpoll : s.pollingOn = false := by
      cases hb : s.pollingOn
      · rfl
      · exact absurd hnil (hinv.mp hb)
    have h1 : insertSet s.connectedClients id = [id] := by
      simp [insertSet, hnil]
    simp [handleClientConnection, h1, startPolling, hpoll]
  · intro id hne
    have hpoll : s.pollingOn = true := hinv.mpr hne
    by_cases hid : id ∈ s.connectedClients
    · have h1 : insertSet s.connectedClients id = s.connectedClients := by
        simp [insertSet, hid]
      by_cases hlen : s.connectedClients.length = 1
      · simp [handleClientConnection, h1, hlen, startPolling_of_true _ hpoll]
      · simp [handleClientConnection, h1, hlen]
    · have h1 : insertSet s.connectedClients id = s.connectedClients ++ [id] := by
        simp [insertSet, hid]
      have hpos : 0 < s.connectedClients.length := List.length_pos.mpr hne
      have hlen : (s.connectedClients ++ [id]).length ≠ 1 := by
        simp only [List.length_append, List.length_singleton]
        omega
      simp [handleClientConnection, h1, hlen, hne]
  · intro id hrm
    have hlen : (removeSet s.connectedClients id).length = 0 := by
      simp [hrm]
    simp only [handleClientDisconnection]
    rw [if_pos hlen]
    exact stopPolling_pollingOn _

/-- Witness for C5: the very first join arms the timer. -/
theorem claim_C5_witness :
    (handleClientConnection (runJL []) "a").pollingOn = true
    ∧ (handleClientConnection (runJL []) "a").fetchCalls
        = (runJL []).fetchCalls + 1 :=
  (claim_C5 []).2.1 "a" rfl

end AeroTrack

namespace AeroTrack

/-- The two message kinds emitted over the socket channel. -/
inductive OutMsg where
  | flightUpdate (flights : List ProcessedFlight) (timestamp : ℚ)
      (totalFlights : Nat) (bounds : Option GeographicBounds)
  | flightError (error : String) (timestamp : ℚ) (message : String)
deriving DecidableEq

/-- Outcome of the awaited token acquisition plus upstream GET inside the
`try`: either a raw response body, or the caught error's message. -/
inductive FetchOutcome where
  | success (raw : RawData)
  | failure (msg : String)

/-- One `fetchAndBroadcastFlightData` cycle at wall-clock `now` (ms), given
the upstream outcome. On success: normalize (`processFlightData`, whose
internal `Date.now()/1000` default is `now/1000`), overwrite `lastFlightData`
and broadcast a `flightUpdate` with the sequence, timestamp, count and the
bounds used. On any failure (credential, network, timeout, upstream): emit a
`flightError` carrying the fixed reason text, the timestamp and the error
message, and change nothing. `io.emit` delivers to every connected socket. -/
def fetchAndBroadcast (s : ServerState) (now : ℚ) (outcome : FetchOutcome) :
    ServerState × List (String × OutMsg) :=
  match outcome with
  | .success raw =>
      ({ s with lastFlightData := processFlightData (now / 1000) raw },
        s.connectedClients.map (fun c =>
          (c, OutMsg.flightUpdate (processFlightData (now / 1000) raw) now
            (processFlightData (now / 1000) raw).length
            (getOptimalBounds (s.clientBounds.map (·.2))))))
  | .failure msg =>
      (s, s.connectedClients.map (fun c =>
        (c, OutMsg.flightError "Failed to fetch flight data" now msg)))

/-- **C6.** A failed fetch cycle publishes to every current subscriber an
error message carrying a textual reason and the timestamp, leaves the whole
service state — in particular the `lastFlightData` cache and the polling
flag — unchanged, and returns normally (the `catch` swallows the error), so
the next tick or interest change simply tries again. -/
theorem claim_C6 :
    ∀ (s : ServerState) (now : ℚ) (msg : String),
      (fetchAndBroadcast s now (.failure msg)).1 = s
      ∧ (fetchAndBroadcast s now (.failure msg)).1.lastFlightData
          = s.lastFlightData
      ∧ (fetchAndBroadcast s now (.failure msg)).1.pollingOn = s.pollingOn
      ∧ (∀ c ∈ s.connectedClients,
          (c, OutMsg.flightError "Failed to fetch flight data" now msg)
            ∈ (fetchAndBroadcast s now (.failure msg)).2) := by
  intro s now msg
  refine ⟨rfl, rfl, rfl, ?_⟩
  intro c hc
  simp only [fetchAndBroadcast, List.mem_map]
  exact ⟨c, hc, rfl⟩

/-- Witness for C6: a one-subscriber service receives the error message. -/
theorem claim_C6_witness :
    ("a", OutMsg.flightError "Failed to fetch flight data" 7 "timeout")
      ∈ (fetchAndBroadcast (handleClientConnection initServer "a") 7
          (FetchOutcome.failure "timeout")).2 :=
  ((claim_C6 (handleClientConnection initServer "a") 7 "timeout").2.2.2) "a"
    (by decide)

theorem foldl_min_le (f : GeographicBounds → ℚ) (l : List GeographicBounds)
    (a : ℚ) :
    l.foldl (fun acc x => min acc (f x)) a ≤ a
    ∧ ∀ x ∈ l, l.foldl (fun acc x => min acc (f x)) a ≤ f x := by
  induction l generalizing a with
  | nil => simp
  | cons y t ih =>
      simp only [List.foldl_cons]
      refine ⟨le_trans (ih (min a (f y))).1 (min_le_left _ _), ?_⟩
      intro x hx
      rcases List.mem_cons.mp hx with h | h
      · subst h
        exact le_trans (ih (min a (f x))).1 (min_le_right _ _)
      · exact (ih (min a (f y))).2 x h

theorem foldl_min_mem (f : GeographicBounds → ℚ) (l : List GeographicBounds)
    (a : ℚ) :
    l.foldl (fun acc x => min acc (f x)) a = a
    ∨ ∃ x ∈ l, l.foldl (fun acc x => min acc (f x)) a = f x := by
  induction l generalizing a with
  | nil => exact Or.inl rfl
  | cons y t ih =>
      simp only [List.foldl_cons]
      rcases ih (min a (f y)) with h | ⟨x, hx, hfx⟩
      · rcases min_choice a (f y) with hm | hm
        · exact Or.inl (by rw [h, hm])
        · exact Or.inr ⟨y, List.mem_cons_self _ _, by rw [h, hm]⟩
      · exact Or.inr ⟨x, List.mem_cons_of_mem _ hx, hfx⟩

theorem foldl_max_ge (f : GeographicBounds → ℚ) (l : List GeographicBounds)
    (a : ℚ) :
    a ≤ l.foldl (fun acc x => max acc (f x)) a
    ∧ ∀ x ∈ l, f x ≤ l.foldl (fun acc x => max acc (f x)) a := by
  induction l generalizing a with
  | nil => simp
  | cons y t ih =>
      simp only [List.foldl_cons]
      refine ⟨le_trans (le_max_left _ _) (ih (max a (f y))).1, ?_⟩
      intro x hx
      rcases List.mem_cons.mp hx with h | h
      · subst h
        exact le_trans (le_max_right _ _) (ih (max a (f x))).1
      · exact (ih (max a (f y))).2 x h

theorem foldl_max_mem (f : GeographicBounds → ℚ) (l : List GeographicBounds)
    (a : ℚ) :
    l.foldl (fun acc x => max acc (f x)) a = a
    ∨ ∃ x ∈ l, l.foldl (fun acc x => max acc (f x)) a = f x := by
  induction l generalizing a with
  | nil => exact Or.inl rfl
  | cons y t ih =>
      simp only [List.foldl_cons]
      rcases ih (max a (f y)) with h | ⟨x, hx, hfx⟩
      · rcases max_choice a (f y) with hm | hm
        · exact Or.inl (by rw [h, hm])
        · exact Or.inr ⟨y, List.mem_cons_self _ _, by rw [h, hm]⟩
      · exact Or.inr ⟨x, List.mem_cons_of_mem _ hx, hfx⟩

/-- **C7.** `getOptimalBounds` returns no region for an empty bounds list,
the single entry unchanged for one subscriber, and for two or more the exact
min/max envelope: each edge bounds every input (the result contains every
input region) and each edge is attained by some input. -/
theorem claim_C7 :
    getOptimalBounds [] = none ∧
    (∀ b : GeographicBounds, getOptimalBounds [b] = some b) ∧
    (∀ (b : GeographicBounds) (rest : List GeographicBounds), rest ≠ [] →
      ∃ r, getOptimalBounds (b :: rest) = some r
        ∧ (∀ x ∈ b :: rest, r.lamin ≤ x.lamin ∧ r.lomin ≤ x.lomin
            ∧ x.lamax ≤ r.lamax ∧ x.lomax ≤ r.lomax)
        ∧ (∃ x ∈ b :: rest, r.lamin = x.lamin)
        ∧ (∃ x ∈ b :: rest, r.lomin = x.lomin)
        ∧ (∃ x ∈ b :: rest, r.lamax = x.lamax)
        ∧ (∃ x ∈ b :: rest, r.lomax = x.lomax)) := by
  refine ⟨rfl, fun b => rfl, ?_⟩
  intro b rest hne
  cases rest with
  | nil => exact absurd rfl hne
  | cons y t =>
      refine ⟨_, rfl, ?_, ?_, ?_, ?_, ?_⟩
      · intro x hx
        rcases List.mem_cons.mp hx with h | h
        · subst h
          exact ⟨(foldl_min_le (·.lamin) (y :: t) x.lamin).1,
            (foldl_min_le (·.lomin) (y :: t) x.lomin).1,
            (foldl_max_ge (·.lamax) (y :: t) x.lamax).1,
            (foldl_max_ge (·.lomax) (y :: t) x.lomax).1⟩
        · exact ⟨(foldl_min_le (·.lamin) (y :: t) b.lamin).2 x h,
            (foldl_min_le (·.lomin) (y :: t) b.lomin).2 x h,
            (foldl_max_ge (·.lamax) (y :: t) b.lamax).2 x h,
            (foldl_max_ge (·.lomax) (y :: t) b.lomax).2 x h⟩
      · rcases foldl_min_mem (·.lamin) (y :: t) b.lamin with h | ⟨x, hx, hfx⟩
        · exact ⟨b, List.mem_cons_self _ _, h⟩
        · exact ⟨x, List.mem_cons_of_mem _ hx, hfx⟩
      · rcases foldl_min_mem (·.lomin) (y :: t) b.lomin with h | ⟨x, hx, hfx⟩
        · exact ⟨b, List.mem_cons_self _ _, h⟩
        · exact ⟨x, List.mem_cons_of_mem _ hx, hfx⟩
      · rcases foldl_max_mem (·.lamax) (y :: t) b.lamax with h | ⟨x, hx, hfx⟩
        · exact ⟨b, List.mem_cons_self _ _, h⟩
        · exact ⟨x, List.mem_cons_of_mem _ hx, hfx⟩
      · rcases foldl_max_mem (·.lomax) (y :: t) b.lomax with h | ⟨x, hx, hfx⟩
        · exact ⟨b, List.mem_cons_self _ _, h⟩
        · exact ⟨x, List.mem_cons_of_mem _ hx, hfx⟩

/-- Witness for C7: the spec's worked example, bounds `{45,5,47,10}` and
`{40,0,50,15}`. -/
theorem claim_C7_witness :
    ∃ r, getOptimalBounds [⟨45, 5, 47, 10⟩, ⟨40, 0, 50, 15⟩] = some r
      ∧ (∀ x ∈ [(⟨45, 5, 47, 10⟩ : GeographicBounds), ⟨40, 0, 50, 15⟩],
          r.lamin ≤ x.lamin ∧ r.lomin ≤ x.lomin
            ∧ x.lamax ≤ r.lamax ∧ x.lomax ≤ r.lomax)
      ∧ (∃ x ∈ [(⟨45, 5, 47, 10⟩ : GeographicBounds), ⟨40, 0, 50, 15⟩],
          r.lamin = x.lamin)
      ∧ (∃ x ∈ [(⟨45, 5, 47, 10⟩ : GeographicBounds), ⟨40, 0, 50, 15⟩],
          r.lomin = x.lomin)
      ∧ (∃ x ∈ [(⟨45, 5, 47, 10⟩ : GeographicBounds), ⟨40, 0, 50, 15⟩],
          r.lamax = x.lamax)
      ∧ (∃ x ∈ [(⟨45, 5, 47, 10⟩ : GeographicBounds), ⟨40, 0, 50, 15⟩],
          r.lomax = x.lomax) :=
  claim_C7.2.2 ⟨45, 5, 47, 10⟩ [⟨40, 0, 50, 15⟩] (by simp)

end AeroTrack

namespace AeroTrack

/-- A concrete region used in registry scenarios. -/
def b1 : GeographicBounds := ⟨45, 5, 47, 10⟩

/-- **C9 counterexample.** `updateClientBounds` performs no registry
membership check: from the initial state, whose registry is empty,
`setBounds("a", b1)` creates a stored-bounds entry — not a no-op — and the
subsequent `remove("a")`, with "a" still absent from the registry, deletes
that entry — not a no-op on the stored bounds either. -/
theorem claim_C9_counterexample :
    "a" ∉ initServer.connectedClients
    ∧ (updateClientBounds initServer "a" b1).clientBounds = [("a", b1)]
    ∧ (updateClientBounds initServer "a" b1).clientBounds
        ≠ initServer.clientBounds
    ∧ "a" ∉ (updateClientBounds initServer "a" b1).connectedClients
    ∧ (handleClientDisconnection (updateClientBounds initServer "a" b1)
        "a").clientBounds = []
    ∧ (handleClientDisconnection (updateClientBounds initServer "a" b1)
        "a").clientBounds ≠ (updateClientBounds initServer "a" b1).clientBounds := by
  refine ⟨?_, ?_, ?_, ?_, ?_, ?_⟩ <;> decide

theorem removeSet_of_not_mem (l : List String) (id : String) (h : id ∉ l) :
    removeSet l id = l := by
  induction l with
  | nil => rfl
  | cons a t ih =>
      have ha : a ≠ id := fun he => h (he ▸ List.mem_cons_self a t)
      have ht : id ∉ t := fun hm => h (List.mem_cons_of_mem a hm)
      simp [removeSet, ha, List.filter]
      simpa [removeSet] using ih ht

theorem removeBoundsMap_of_lookup_none (m : List (String × GeographicBounds))
    (id : String) (h : lookupCM m id = none) :
    removeBoundsMap m id = m := by
  induction m with
  | nil => rfl
  | cons p t ih =>
      obtain ⟨a, b⟩ := p
      have ha : (a == id) = false := by
        cases hb : a == id
        · rfl
        · exfalso
          rw [lookupCM_cons, if_pos hb] at h
          exact Option.noConfusion h
      have ht : lookupCM t id = none := by
        rwa [lookupCM_cons, if_neg (by simp [ha])] at h
      have ha' : a ≠ id := by simpa using ha
      simp [removeBoundsMap, List.filter, ha']
      simpa [removeBoundsMap] using ih ht

/-- **C9 (amended).** `remove(id)` always clears both the registry entry and
any stored bounds for that id and never fails; it leaves the registry and the
stored bounds unchanged when the id has neither a registry entry nor stored
bounds. `setBounds(id, bounds)` stores the bounds for the id unconditionally —
also when the id is not in the registry — never fails, and leaves the
registry itself unchanged. -/
theorem claim_C9_amended :
    (∀ (s : ServerState) (id : String),
      (handleClientDisconnection s id).connectedClients
          = removeSet s.connectedClients id
      ∧ (handleClientDisconnection s id).clientBounds
          = removeBoundsMap s.clientBounds id) ∧
    (∀ (s : ServerState) (id : String),
      id ∉ s.connectedClients → lookupCM s.clientBounds id = none →
      (handleClientDisconnection s id).connectedClients = s.connectedClients
      ∧ (handleClientDisconnection s id).clientBounds = s.clientBounds) ∧
    (∀ (s : ServerState) (id : String) (b : GeographicBounds),
      (updateClientBounds s id b).clientBounds = setCM s.clientBounds id b
      ∧ lookupCM (updateClientBounds s id b).clientBounds id = some b
      ∧ (updateClientBounds s id b).connectedClients = s.connectedClients) := by
  have hdc : ∀ (s : ServerState) (id : String),
      (handleClientDisconnection s id).connectedClients
          = removeSet s.connectedClients id
      ∧ (handleClientDisconnection s id).clientBounds
          = removeBoundsMap s.clientBounds id := by
    intro s id
    by_cases hlen : (removeSet s.connectedClients id).length = 0
    · simp only [handleClientDisconnection]
      rw [if_pos hlen]
      constructor
      · rw [stopPolling_connectedClients]
      · by_cases hp : s.pollingOn = true <;> simp [stopPolling, hp]
    · simp only [handleClientDisconnection]
      rw [if_neg hlen]
      exact ⟨rfl, rfl⟩
  refine ⟨hdc, ?_, ?_⟩
  · intro s id hreg hbnd
    rcases hdc s id with ⟨h1, h2⟩
    rw [h1, h2, removeSet_of_not_mem _ _ hreg,
      removeBoundsMap_of_lookup_none _ _ hbnd]
    exact ⟨rfl, rfl⟩
  · intro s id b
    exact ⟨rfl, lookupCM_setCM_self s.clientBounds id b, rfl⟩

/-- Witness for the amended C9: removing an id unknown to the empty service
changes nothing. -/
theorem claim_C9_witness :
    (handleClientDisconnection initServer "a").connectedClients
        = initServer.connectedClients
    ∧ (handleClientDisconnection initServer "a").clientBounds
        = initServer.clientBounds :=
  claim_C9_amended.2.1 initServer "a" (by decide) rfl

end AeroTrack

namespace AeroTrack

/-- In-flight upstream work of one service instance.
`fetchAndBroadcastFlightData` is `async` and is invoked fire-and-forget (no
`await`, no serialization) both from the `setInterval` callback and from
`updateClientBounds`; between the start of its awaited token/HTTP work and
its completion, other events run on the event loop. The class has no busy
flag: no call site conditions a new invocation on the previous one having
settled. `inFlight` counts started-but-unsettled upstream fetches. -/
structure AsyncState where
  inFlight : Nat
deriving DecidableEq

/-- Event-loop events touching the fetch path: a timer tick, an interest
change (`updateClientBounds`), or the settling of one outstanding upstream
call (fulfilled or rejected). -/
inductive AsyncEvent where
  | tick
  | interestChange
  | complete

def stepAsync (s : AsyncState) : AsyncEvent → AsyncState
  | .tick => { inFlight := s.inFlight + 1 }
  | .interestChange => { inFlight := s.inFlight + 1 }
  | .complete => { inFlight := s.inFlight - 1 }

def runAsync (evs : List AsyncEvent) : AsyncState :=
  evs.foldl stepAsync { inFlight := 0 }

/-- **C10 counterexample.** A tick followed by an interest change before the
first upstream call settles leaves two upstream fetches in flight — the
claimed mutual exclusion ("never started while a previous cycle's upstream
call has not yet completed") fails on this two-event trace. -/
theorem claim_C10_counterexample :
    (runAsync [AsyncEvent.tick, AsyncEvent.interestChange]).inFlight = 2 := rfl

/-- **C10 (amended).** Nothing in the service serializes fetch cycles: a
scheduled tick or an interest change starts a new upstream fetch
unconditionally, whatever work is already in flight — there is no busy
guard — so two (indeed arbitrarily many) upstream fetches can be in flight
simultaneously, and duplicate upstream calls and out-of-order cache writes
are possible. -/
theorem claim_C10_amended :
    (∀ s : AsyncState, (stepAsync s .tick).inFlight = s.inFlight + 1
      ∧ (stepAsync s .interestChange).inFlight = s.inFlight + 1) ∧
    (∃ evs : List AsyncEvent, 2 ≤ (runAsync evs).inFlight) :=
  ⟨fun _ => ⟨rfl, rfl⟩, ⟨[.tick, .interestChange], by decide⟩⟩

/-- `rawAllNull` with a whitespace-only raw callsign (truthy in JS, so it
bypasses the `|| 'Unknown'` default, then trims to empty). -/
def rawWsCallsign : RawState :=
  { rawAllNull with callsign := some "   " }

/-- **C8.** The spec — and the repo's own unit test "should handle missing or
null values gracefully", which expects `callsign: 'Unknown'` on a null raw
callsign — says an absent callsign defaults to the string `"Unknown"` and
that every produced callsign is non-empty. The code computes
`normalizeCallsign(state[1] || 'Unknown')`, which upper-cases the default to
`"UNKNOWN"`, and a whitespace-only raw callsign is truthy, skips the
default, and trims to the empty string. The code therefore contradicts its
own test at the null-callsign input. -/
theorem claim_C8 :
    (processFlightData 1699000000 (RawData.states [rawAllNull])).map
        (fun r => r.callsign) = ["UNKNOWN"]
    ∧ "UNKNOWN" ≠ "Unknown"
    ∧ (processFlightData 1699000000 (RawData.states [rawWsCallsign])).map
        (fun r => r.callsign) = [""] := by
  refine ⟨?_, by decide, ?_⟩ <;> decide

end AeroTrack
